import Mathlib

/-!
Shallow embedding of `src/rembert.py` from the repository
`ubamba98/chaii-hindi-tamil-question-answering`, a single training script
that fine-tunes a RemBERT model for extractive (span) question answering
with k-fold cross-validation.

Conventions of the embedding:
* dataframes are lists of `Row`s, in file order; `pd.concat` is `List.append`;
  boolean-mask selection is `List.filter`; `reset_index(drop=True)` is the
  identity on the row list;
* tensors are nested lists of rationals (`ℚ` stands in for the script's
  floating-point values, keeping arithmetic exact);
* `torch.nn.CrossEntropyLoss` is embedded from its documented semantics
  (mean reduction over the targets not equal to `ignore_index`), with the
  per-sample negative-log-softmax term kept as a parameter `nll`, since the
  transcendental part is external library code and orthogonal to the
  masking/averaging structure the script relies on;
* the RemBERT backbone (`self.rembert`) is external library code; the
  embedded `forward` starts from its output `sequence_output`, exactly as
  the modified code in the script does.
-/

namespace Rembert

/-- One dataframe row.  `id` is the `id` column, `kfold` the fold label of
`train_folds.csv` (external csvs carry no meaningful value there), `hasNa`
records whether some cell of the row is missing (pandas `NaN`), and
`payload` stands for the remaining columns (question, context, answer text
and answer start). -/
structure Row where
  id : String
  kfold : ℤ
  hasNa : Bool
  payload : String
  deriving DecidableEq, Repr

/-- `train[train.kfold == fold].reset_index(drop=True)` -/
def validSelection (fold : ℤ) (train : List Row) : List Row :=
  train.filter (fun r => r.kfold = fold)

/-- `train[train.kfold != fold].reset_index(drop=True)` -/
def trainSelection (fold : ℤ) (train : List Row) : List Row :=
  train.filter (fun r => r.kfold ≠ fold)

/-- `pd.read_csv(...).dropna()` : drop the rows with a missing value. -/
def dropna (df : List Row) : List Row :=
  df.filter (fun r => r.hasNa = false)

/-- The per-row transformation applied to `external_train`:
`external_train["fold"] = -1` followed by
`external_train = external_train.reset_index().rename(columns={"index": "id"})`
and `external_train["id"] = "id" + external_train["id"].astype(str)`;
the row at position `i` keeps its payload, and its id becomes `"id" ++ i`. -/
def externalReindex (i : ℕ) (r : Row) : Row :=
  { r with id := "id" ++ toString i, kfold := -1 }

/-- `external_train = pd.concat([external_mlqa, external_xquad])` with the
fold marking and id re-indexing applied. -/
def externalTrain (mlqa xquad : List Row) : List Row :=
  ((mlqa ++ xquad).enum).map (fun p => externalReindex p.1 p.2)

/-- `train = pd.concat([tydiqa, squadv2, external_train] + 5 * [train])`:
the assembled (post-augmentation) training dataframe, where `train` on the
right is the pre-augmentation selection `train[train.kfold != fold]` and
`tydiqa`, `squadv2` are the post-`dropna` dataframes. -/
def assembledTrain (fold : ℤ) (trainFoldsCsv mlqaCsv xquadCsv squadv2Csv tydiqaCsv : List Row) :
    List Row :=
  dropna tydiqaCsv ++ dropna squadv2Csv ++ externalTrain mlqaCsv xquadCsv
    ++ (List.replicate 5 (trainSelection fold trainFoldsCsv)).flatten

/-! ### The custom model head (`CustomRemBertForQuestionAnswering`) -/

/-- Dot product of a weight row with an input vector (`zip` mirrors the
shape-agreement that torch enforces at runtime). -/
def dot (w x : List ℚ) : ℚ :=
  ((w.zip x).map (fun p => p.1 * p.2)).sum

/-- A `torch.nn.Linear(in_features, 1)` layer: one weight row and one bias. -/
structure Linear where
  weight : List ℚ
  bias : ℚ
  deriving DecidableEq, Repr

/-- Applying a `Linear(in_features, 1)` layer to one input vector. -/
def Linear.apply (l : Linear) (x : List ℚ) : ℚ :=
  dot l.weight x + l.bias

/-- The parameters `__init__` adds:
`self.end_outputs = nn.Linear(config.hidden_size, 1)` and
`self.start_outputs = nn.Linear(config.hidden_size + 1, 1)`. -/
structure CustomHead where
  end_outputs : Linear
  start_outputs : Linear
  deriving DecidableEq, Repr

/-- `__init__` with `config.hidden_size = hiddenSize`: the parameter source
`θ` stands for the (random) initialisation; the point is the shapes:
`end_outputs` takes `hiddenSize` inputs, `start_outputs` takes
`hiddenSize + 1`. -/
def initHead (hiddenSize : ℕ) (θ : ℕ → ℚ) : CustomHead where
  end_outputs := ⟨(List.range hiddenSize).map θ, θ hiddenSize⟩
  start_outputs :=
    ⟨(List.range (hiddenSize + 1)).map (fun i => θ (hiddenSize + 1 + i)),
     θ (2 * hiddenSize + 2)⟩

/-- Applying a `Linear(_, 1)` layer along the last dimension of a
`(batch, seq, in_features)` tensor, producing `(batch, seq, 1)`. -/
def applyLast (l : Linear) (t : List (List (List ℚ))) : List (List (List ℚ)) :=
  t.map (fun m => m.map (fun v => [l.apply v]))

/-- `torch.cat((a, b), dim=-1)` on two `(batch, seq, _)` tensors. -/
def catLast (a b : List (List (List ℚ))) : List (List (List ℚ)) :=
  (a.zip b).map (fun p => (p.1.zip p.2).map (fun q => q.1 ++ q.2))

/-- `t.squeeze(-1)` on a `(batch, seq, 1)` tensor (every innermost list is a
singleton for the tensors it is applied to); `.contiguous()` is a memory
no-op and is dropped. -/
def squeezeLast (t : List (List (List ℚ))) : List (List ℚ) :=
  t.map (fun m => m.map (fun v => v.headI))

/-- `x.clamp(lo, hi)` on one integer entry. -/
def clampTo (lo hi x : ℤ) : ℤ :=
  max lo (min x hi)

/-- `t.size(1)` of a 2-dimensional tensor: the length of a row (the rows of
the logits tensors all have equal length by construction). -/
def size1 (t : List (List ℚ)) : ℕ :=
  t.headI.length

/-- The (logits-row, target) pairs that `torch.nn.CrossEntropyLoss` with
`ignore_index = ignoreIdx` actually scores: targets equal to `ignoreIdx`
are dropped (PyTorch documented semantics). -/
def ceActive (ignoreIdx : ℕ) (logits : List (List ℚ)) (targets : List ℕ) :
    List (List ℚ × ℕ) :=
  (logits.zip targets).filter (fun p => p.2 ≠ ignoreIdx)

/-- `torch.nn.CrossEntropyLoss(ignore_index=ignoreIdx)` with its default
mean reduction: the mean of the per-sample term over the non-ignored
samples.  The per-sample negative-log-softmax term `nll logitsRow target`
is kept as a parameter: it is external library code (transcendental
floating-point arithmetic), while the masking and averaging around it are
what the script's loss computation relies on. -/
def crossEntropyLoss (nll : List ℚ → ℕ → ℚ) (ignoreIdx : ℕ)
    (logits : List (List ℚ)) (targets : List ℕ) : ℚ :=
  let act := ceActive ignoreIdx logits targets
  (act.map (fun p => nll p.1 p.2)).sum / (act.length : ℚ)

/-- What `forward` returns (the fields of `QuestionAnsweringModelOutput`
the script computes; hidden states / attentions are passed through from
the backbone and not modelled). -/
structure ForwardOutput where
  loss : Option ℚ
  start_logits : List (List ℚ)
  end_logits : List (List ℚ)
  deriving DecidableEq, Repr

/-- `CustomRemBertForQuestionAnswering.forward`, embedded from
`sequence_output = outputs[0]` onward (`self.rembert` is external library
code; its output `(batch, seq, hidden)` tensor is the input here).
`start_positions` / `end_positions` are `None` or 1-dimensional integer
label tensors (the multi-GPU `squeeze(-1)` branch is a no-op for the
1-dimensional tensors modelled). -/
def forward (nll : List ℚ → ℕ → ℚ) (head : CustomHead)
    (sequence_output : List (List (List ℚ)))
    (start_positions end_positions : Option (List ℤ)) : ForwardOutput :=
  let end_logits3 := applyLast head.end_outputs sequence_output
  let start_logits_cat := catLast sequence_output end_logits3
  let start_logits3 := applyLast head.start_outputs start_logits_cat
  let start_logits := squeezeLast start_logits3
  let end_logits := squeezeLast end_logits3
  match start_positions, end_positions with
  | some sp, some ep =>
    let ignored_index := size1 start_logits
    let spClamped := sp.map (fun x => (clampTo 0 (ignored_index : ℤ) x).toNat)
    let epClamped := ep.map (fun x => (clampTo 0 (ignored_index : ℤ) x).toNat)
    let start_loss := crossEntropyLoss nll ignored_index start_logits spClamped
    let end_loss := crossEntropyLoss nll ignored_index end_logits epClamped
    { loss := some ((start_loss + end_loss) / 2)
      start_logits := start_logits
      end_logits := end_logits }
  | _, _ =>
    { loss := none
      start_logits := start_logits
      end_logits := end_logits }

/-! ### The training pipeline (`train_fold`) and the command line -/

/-- `MODEL_CHECKPOINT = "google/rembert"` -/
def MODEL_CHECKPOINT : String := "google/rembert"

/-- `MAX_LENGTH = 384` : the maximum length of a feature. -/
def MAX_LENGTH : ℕ := 384

/-- `DOC_STRIDE = 128` : the authorized overlap between two parts of the
context when splitting it is needed. -/
def DOC_STRIDE : ℕ := 128

/-- The keyword arguments fixed by
`partial(prepare_train_features, tokenizer=..., pad_on_right=...,
max_len=MAX_LENGTH, doc_stride=DOC_STRIDE)` (the tokenizer object itself
is external state; `padOnRight` is its `padding_side == "right"` bit). -/
structure PrepArgs where
  padOnRight : Bool
  maxLen : ℕ
  docStride : ℕ
  deriving DecidableEq, Repr

/-- The arguments `jaccardScore(valid, tokenizer, pad_on_right=...,
max_len=..., doc_stride=...)` is constructed with. -/
structure JaccardArgs where
  validDf : List Row
  padOnRight : Bool
  maxLen : ℕ
  docStride : ℕ
  deriving DecidableEq, Repr

/-- The stages `train_fold` runs, at the granularity of the pipeline:
loading/splitting the csv data, assembling the training data and
converting the answers, tokenizing the two datasets into features (with
the `prepare_train_features` arguments used for each), instantiating the
model from its pretrained checkpoint, and running `trainer.train()`. -/
inductive Stage where
  | loadAndSplitData
  | assembleAndConvert
  | tokenizeFeatures (trainArgs validArgs : PrepArgs)
  | loadModel (checkpoint : String)
  | trainLoop
  deriving DecidableEq, Repr

/-- What one call of `train_fold` computes and does, as far as it is
observable outside the external training framework. -/
structure TrainFoldResult where
  valid : List Row
  train : List Row
  trainPrep : PrepArgs
  validPrep : PrepArgs
  metricsArgs : JaccardArgs
  checkpoint : String
  csvPaths : List String
  stages : List Stage
  deriving Repr

/-- The filesystem/tokenizer environment `train_fold` reads: the contents
of the five csv files its hard-coded paths point at, and the tokenizer's
padding side. -/
structure Env where
  trainFoldsCsv : List Row
  mlqaCsv : List Row
  xquadCsv : List Row
  squadv2Csv : List Row
  tydiqaCsv : List Row
  padOnRight : Bool

/-- `train_fold(fold, model_class)`, embedded stage by stage in source
order.  `convert_answers` (from the absent `src/utils.py`) adds a derived
`answers` column computed row-wise from `answer_start` / `answer_text`; it
adds, removes and reorders no row, so the row lists are unchanged by it
and it is recorded as part of the `assembleAndConvert` stage. -/
def train_fold (fold : ℤ) (env : Env) : TrainFoldResult :=
  let valid := validSelection fold env.trainFoldsCsv
  let train := assembledTrain fold env.trainFoldsCsv env.mlqaCsv env.xquadCsv
    env.squadv2Csv env.tydiqaCsv
  let prepArgs : PrepArgs := ⟨env.padOnRight, MAX_LENGTH, DOC_STRIDE⟩
  { valid := valid
    train := train
    trainPrep := prepArgs
    validPrep := prepArgs
    metricsArgs := ⟨valid, env.padOnRight, MAX_LENGTH, DOC_STRIDE⟩
    checkpoint := MODEL_CHECKPOINT
    csvPaths := ["../input/train_folds.csv", "../input/mlqa_hindi.csv",
      "../input/xquad.csv", "../input/squadv2.csv", "../input/tydiqa.csv"]
    stages := [Stage.loadAndSplitData, Stage.assembleAndConvert,
      Stage.tokenizeFeatures prepArgs prepArgs,
      Stage.loadModel MODEL_CHECKPOINT, Stage.trainLoop] }

/-- The argument types argparse knows in this script. -/
inductive ArgType where
  | int
  deriving DecidableEq, Repr

/-- The `__main__` block's parser setup: the single call
`ap.add_argument("--fold", type=int)`. -/
def cliArguments : List (String × ArgType) := [("--fold", ArgType.int)]

/-- One decimal digit of the value argparse's `type=int` converts. -/
def digitVal (c : Char) : Option ℕ :=
  if c = '0' then some 0 else if c = '1' then some 1 else if c = '2' then some 2
  else if c = '3' then some 3 else if c = '4' then some 4 else if c = '5' then some 5
  else if c = '6' then some 6 else if c = '7' then some 7 else if c = '8' then some 8
  else if c = '9' then some 9 else none

/-- Decimal digit-string parse; `none` on the empty string or a non-digit. -/
def parseNatChars : List Char → Option ℕ
  | [] => none
  | cs => cs.foldl (fun acc c =>
      match acc, digitVal c with
      | some n, some d => some (10 * n + d)
      | _, _ => none) (some 0)

/-- The `type=int` conversion argparse applies to the flag's value:
Python's `int(...)` on an optional minus sign followed by decimal digits
(errors — `none` — otherwise). -/
def parseIntToken (s : String) : Option ℤ :=
  match s.data with
  | '-' :: rest => (parseNatChars rest).map (fun n => -(n : ℤ))
  | l => (parseNatChars l).map (fun n => (n : ℤ))

/-- The argparse parse of `argv` for this parser, from argparse's
documented behaviour: with no arguments `fold` stays `None`; with
`--fold N` it is the integer `N`; an unrecognised flag, a missing value or
a non-integer value is an error (`none`).  (argparse's automatic `-h` help
flag, which prints usage and exits without reaching `train_fold`, and the
equivalent `--fold=N` spelling are not modelled.) -/
def parseArgv : List String → Option (Option ℤ)
  | [] => some none
  | ["--fold", s] => (parseIntToken s).map some
  | _ => none

/-- `__main__`: parse the command line and call
`train_fold(args.fold, model_class=CustomRemBertForQuestionAnswering)`.
The script is only ever invoked with the flag present; the degenerate
`fold = None` run is not modelled. -/
def mainRun (argv : List String) (env : Env) : Option TrainFoldResult :=
  match parseArgv argv with
  | some (some f) => some (train_fold f env)
  | _ => none

/-! ### The evaluation metric (`jaccardScore`, from the absent `src/utils.py`) -/

/-- Modelled from the spec: the Jaccard similarity used by `jaccardScore`
to score textual overlap — the size of the intersection of the two word
sets over the size of their union.  (`jaccardScore` lives in
`src/utils.py`, which is not under `src/`.) -/
def jaccard (a b : List String) : ℚ :=
  let A := a.dedup
  let B := b.dedup
  let i := (A.filter (fun w => w ∈ B)).length
  ((i : ℚ)) / ((A.length + B.length - i : ℕ) : ℚ)

/-- Modelled from the spec: decoding a predicted `(start, end)` token span
back to the answer text it covers in the context. -/
def decodeSpan (contextTokens : List String) (s e : ℕ) : List String :=
  (contextTokens.drop s).take (e + 1 - s)

/-- One held-out validation example, as the metric sees it: the context
and the gold answer text. -/
structure ValExample where
  contextTokens : List String
  goldAnswer : List String
  deriving DecidableEq, Repr

/-- Modelled from the spec: the metric computed during training decodes
each predicted span back to answer text and averages the Jaccard overlap
with the corresponding held-out validation answer.  (`jaccardScore` lives
in `src/utils.py`, which is not under `src/`.) -/
def jaccardScoreMetric (examples : List ValExample) (preds : List (ℕ × ℕ)) : ℚ :=
  let scores := (examples.zip preds).map
    (fun p => jaccard (decodeSpan p.1.contextTokens p.2.1 p.2.2) p.1.goldAnswer)
  scores.sum / (scores.length : ℚ)

/-! ### Concrete evaluation fixtures -/

/-- A concrete per-sample loss term used to evaluate the embedding on
concrete inputs: the sum of the logits row plus the target index. -/
def nll0 : List ℚ → ℕ → ℚ := fun r t => r.sum + (t : ℚ)

/-- A concrete custom head with `hidden_size = 1`: both logits equal the
(one-dimensional) hidden state. -/
def head0 : CustomHead := ⟨⟨[1], 0⟩, ⟨[1, 0], 0⟩⟩

/-- A concrete backbone output: batch 2, sequence length 2, hidden size 1. -/
def so0 : List (List (List ℚ)) := [[[0], [0]], [[1], [1]]]

/-- An environment with empty csv files. -/
def env0 : Env := ⟨[], [], [], [], [], true⟩

/-- A `train_folds.csv` row with `kfold = 1`. -/
def rowA : Row := ⟨"a", 1, false, "pa"⟩

/-- A `train_folds.csv` row with `kfold = 0`. -/
def rowB : Row := ⟨"b", 0, false, "pb"⟩

/-- A tydiqa row without missing values. -/
def rowT : Row := ⟨"t", 2, false, "pt"⟩

/-- A squadv2 row without missing values. -/
def rowS : Row := ⟨"s", 2, false, "ps"⟩

/-- An mlqa row with payload `"pm"`. -/
def rowM : Row := ⟨"m", 2, false, "pm"⟩

/-- A small concrete environment: two competition rows, one mlqa row, one
squadv2 row, one tydiqa row. -/
def env10 : Env := ⟨[rowA, rowB], [rowM], [], [rowS], [rowT], true⟩

/-! ### Helper lemmas -/

theorem zip_map_self {α β γ : Type} (f : α → β) (g : α → β → γ) (m : List α) :
    ((m.zip (m.map f)).map (fun q => g q.1 q.2)) = m.map (fun v => g v (f v)) := by
  induction m with
  | nil => rfl
  | cons a t ih => simp only [List.map_cons, List.zip_cons_cons, ih]

/-- The end logits `forward` returns are the `end_outputs` layer applied
to each position's hidden state, whatever the labels are. -/
theorem forward_end_logits (nll : List ℚ → ℕ → ℚ) (head : CustomHead)
    (so : List (List (List ℚ))) (sp ep : Option (List ℤ)) :
    (forward nll head so sp ep).end_logits =
      so.map (fun m => m.map head.end_outputs.apply) := by
  cases sp <;> cases ep <;>
    simp [forward, applyLast, squeezeLast, List.map_map, Function.comp]

/-- The start logits `forward` returns are the `start_outputs` layer
applied to each position's hidden state concatenated with that position's
end logit, whatever the labels are. -/
theorem forward_start_logits (nll : List ℚ → ℕ → ℚ) (head : CustomHead)
    (so : List (List (List ℚ))) (sp ep : Option (List ℤ)) :
    (forward nll head so sp ep).start_logits =
      so.map (fun m => m.map
        (fun v => head.start_outputs.apply (v ++ [head.end_outputs.apply v]))) := by
  have hcat : catLast so (applyLast head.end_outputs so) =
      so.map (fun m => m.map (fun v => v ++ [head.end_outputs.apply v])) := by
    unfold catLast applyLast
    rw [zip_map_self (fun m => m.map (fun v => [head.end_outputs.apply v]))
      (fun a b => (a.zip b).map (fun q => q.1 ++ q.2)) so]
    refine List.map_congr_left (fun m _ => ?_)
    rw [zip_map_self (fun v => [head.end_outputs.apply v]) (fun a b => a ++ b) m]
  cases sp <;> cases ep <;>
    · simp only [forward]
      rw [hcat]
      simp [applyLast, squeezeLast, List.map_map, Function.comp]

theorem getD_map_of_lt {α β : Type} (f : α → β) (l : List α) (i : ℕ)
    (h : i < l.length) (d : α) (d2 : β) :
    (l.map f).getD i d2 = f (l.getD i d) := by
  induction l generalizing i with
  | nil => simp at h
  | cons a t ih =>
    cases i with
    | zero => rfl
    | succ n =>
      simp only [List.map_cons, List.getD_cons_succ]
      exact ih n (by simpa using h)

/-- The loss `forward` computes when both label tensors are present,
written in terms of the label-independent logits. -/
theorem forward_loss_eq (nll : List ℚ → ℕ → ℚ) (head : CustomHead)
    (so : List (List (List ℚ))) (sp ep : List ℤ) :
    (forward nll head so (some sp) (some ep)).loss =
      some ((crossEntropyLoss nll (size1 (forward nll head so none none).start_logits)
              ((forward nll head so none none).start_logits)
              (sp.map (fun x =>
                (clampTo 0 ((size1 (forward nll head so none none).start_logits : ℕ) : ℤ) x).toNat))
            + crossEntropyLoss nll (size1 (forward nll head so none none).start_logits)
              ((forward nll head so none none).end_logits)
              (ep.map (fun x =>
                (clampTo 0 ((size1 (forward nll head so none none).start_logits : ℕ) : ℤ) x).toNat))) / 2) :=
  rfl

/-- Every pair the masked cross-entropy actually scores has a target
different from the ignore index. -/
theorem ceActive_target_ne (L : ℕ) (logits : List (List ℚ)) (ts : List ℕ)
    (p : List ℚ × ℕ) (hp : p ∈ ceActive L logits ts) : p.2 ≠ L := by
  have := (List.mem_filter.mp hp).2
  simpa using this

/-- Target lists that agree except where both carry the ignore index give
the same scored pairs. -/
theorem ceActive_congr (L : ℕ) (logits : List (List ℚ)) (t t' : List ℕ)
    (h : List.Forall₂ (fun a b => a = b ∨ (a = L ∧ b = L)) t t') :
    ceActive L logits t = ceActive L logits t' := by
  induction logits generalizing t t' with
  | nil => simp [ceActive]
  | cons r rest ih =>
    cases h with
    | nil => simp [ceActive]
    | cons hab htail =>
      rcases hab with rfl | ⟨ha, hb⟩
      · have hrec := ih _ _ htail
        simp only [ceActive, List.zip_cons_cons, List.filter_cons] at hrec ⊢
        simp only [ne_eq, decide_not] at hrec ⊢
        rw [hrec]
      · have hrec := ih _ _ htail
        simp only [ceActive, List.zip_cons_cons, List.filter_cons] at hrec ⊢
        simp only [ne_eq, decide_not] at hrec ⊢
        simp [ha, hb, hrec]

theorem forall2_map {α β : Type} {R : α → α → Prop} {S : β → β → Prop}
    (f : α → β) {l l' : List α} (h : List.Forall₂ R l l')
    (hf : ∀ a b, R a b → S (f a) (f b)) :
    List.Forall₂ S (l.map f) (l'.map f) := by
  induction h with
  | nil => simp
  | cons hab htail ihx =>
    simp only [List.map_cons]
    exact List.Forall₂.cons (hf _ _ hab) ihx

/-- Clamping into `[0, L]` sends every value at least `L` to `L`. -/
theorem clampTo_toNat_of_ge (L : ℕ) (x : ℤ) (h : (L : ℤ) ≤ x) :
    (clampTo 0 (L : ℤ) x).toNat = L := by
  unfold clampTo
  rw [min_eq_right h, max_eq_right (by positivity)]
  simp

/-- Clamping into `[0, L]` sends every negative value to `0`. -/
theorem clampTo_toNat_of_neg (L : ℕ) (x : ℤ) (h : x < 0) :
    (clampTo 0 (L : ℤ) x).toNat = 0 := by
  unfold clampTo
  have : min x (L : ℤ) = x := min_eq_left (by omega)
  rw [this]
  omega

theorem crossEntropyLoss_congr (nll : List ℚ → ℕ → ℚ) (L : ℕ)
    (logits : List (List ℚ)) (t t' : List ℕ)
    (h : List.Forall₂ (fun a b => a = b ∨ (a = L ∧ b = L)) t t') :
    crossEntropyLoss nll L logits t = crossEntropyLoss nll L logits t' := by
  unfold crossEntropyLoss
  rw [ceActive_congr L logits t t' h]

/-- Row multiplicity in the assembled training dataframe, by source. -/
theorem count_assembledTrain (fold : ℤ) (t m x s ty : List Row) (r : Row) :
    (assembledTrain fold t m x s ty).count r =
      (dropna ty).count r + (dropna s).count r + (externalTrain m x).count r +
        5 * (trainSelection fold t).count r := by
  simp [assembledTrain, List.count_append, List.count_flatten, List.map_replicate,
    List.sum_replicate, smul_eq_mul]
  ring

/-- Predicate-count in the assembled training dataframe, by source. -/
theorem countP_assembledTrain (fold : ℤ) (t m x s ty : List Row) (p : Row → Bool) :
    (assembledTrain fold t m x s ty).countP p =
      (dropna ty).countP p + (dropna s).countP p + (externalTrain m x).countP p +
        5 * (trainSelection fold t).countP p := by
  simp [assembledTrain, List.countP_append, List.countP_flatten, List.map_replicate,
    List.sum_replicate, smul_eq_mul]
  ring

/-- The id re-indexing of the external data preserves payload
multiplicities. -/
theorem countP_payload_externalTrain (m x : List Row) (pl : String) :
    (externalTrain m x).countP (fun q => q.payload = pl) =
      (m ++ x).countP (fun q => q.payload = pl) := by
  unfold externalTrain
  rw [List.countP_map]
  have h1 : ((fun q : Row => decide (q.payload = pl)) ∘ fun p : ℕ × Row => externalReindex p.1 p.2)
      = (fun p : ℕ × Row => decide (p.2.payload = pl)) := by
    funext p
    simp [externalReindex]
  rw [h1]
  have h2 : (m ++ x).countP (fun q => q.payload = pl) =
      ((m ++ x).enum.map Prod.snd).countP (fun q => q.payload = pl) := by
    rw [List.enum_map_snd]
  rw [h2, List.countP_map]
  rfl

/-! ### Claims -/

/-- C1: the custom head consists of exactly two linear layers —
`end_outputs` maps each hidden state of size `hidden_size` to one end
logit and `start_outputs` maps the concatenation of the hidden state with
that position's end logit (size `hidden_size + 1`) to one start logit —
and for every input, `forward` computes the end logits first and the
start logits as a linear function of the hidden state and the end logit. -/
theorem c1_custom_head_two_linear_layers (hiddenSize : ℕ) (θ : ℕ → ℚ)
    (nll : List ℚ → ℕ → ℚ) (head : CustomHead) (so : List (List (List ℚ)))
    (sp ep : Option (List ℤ)) (b t : ℕ)
    (hb : b < so.length) (ht : t < (so.getD b []).length) :
    (initHead hiddenSize θ).end_outputs.weight.length = hiddenSize ∧
    (initHead hiddenSize θ).start_outputs.weight.length = hiddenSize + 1 ∧
    ((forward nll head so sp ep).end_logits.getD b []).getD t 0 =
      head.end_outputs.apply ((so.getD b []).getD t []) ∧
    ((forward nll head so sp ep).start_logits.getD b []).getD t 0 =
      head.start_outputs.apply ((so.getD b []).getD t [] ++
        [head.end_outputs.apply ((so.getD b []).getD t [])]) := by
  refine ⟨by simp [initHead], by simp [initHead], ?_, ?_⟩
  · rw [forward_end_logits]
    rw [getD_map_of_lt _ so b hb []]
    exact getD_map_of_lt _ _ t ht [] 0
  · rw [forward_start_logits]
    rw [getD_map_of_lt _ so b hb []]
    exact getD_map_of_lt _ _ t ht [] 0

/-- Witness for C1 at `hidden_size = 2` and a concrete batch. -/
theorem c1_witness :
    (initHead 2 (fun i => (i : ℚ))).end_outputs.weight.length = 2 ∧
    (initHead 2 (fun i => (i : ℚ))).start_outputs.weight.length = 2 + 1 ∧
    ((forward nll0 head0 so0 none none).end_logits.getD 0 []).getD 1 0 =
      head0.end_outputs.apply ((so0.getD 0 []).getD 1 []) ∧
    ((forward nll0 head0 so0 none none).start_logits.getD 0 []).getD 1 0 =
      head0.start_outputs.apply ((so0.getD 0 []).getD 1 [] ++
        [head0.end_outputs.apply ((so0.getD 0 []).getD 1 [])]) :=
  c1_custom_head_two_linear_layers 2 (fun i => (i : ℚ)) nll0 head0 so0 none none 0 1
    (by decide) (by decide)

/-- C2: for every integer fold value, `train_fold` partitions the rows of
`train_folds.csv` by the `kfold` column — a row is in the validation
selection iff its `kfold` equals the fold, in the pre-augmentation
training selection iff it differs, the two selections are disjoint, and
together they cover every row of the file (their concatenation is a
permutation of it). -/
theorem c2_train_fold_partitions_by_kfold (fold : ℤ) (train : List Row) :
    (∀ r : Row, r ∈ validSelection fold train ↔ r ∈ train ∧ r.kfold = fold) ∧
    (∀ r : Row, r ∈ trainSelection fold train ↔ r ∈ train ∧ r.kfold ≠ fold) ∧
    (∀ r : Row, r ∈ validSelection fold train → r ∉ trainSelection fold train) ∧
    (validSelection fold train ++ trainSelection fold train).Perm train := by
  refine ⟨?_, ?_, ?_, ?_⟩
  · intro r
    simp [validSelection, List.mem_filter]
  · intro r
    simp [trainSelection, List.mem_filter]
  · intro r hv ht
    simp [validSelection, List.mem_filter] at hv
    simp [trainSelection, List.mem_filter] at ht
    exact ht.2 hv.2
  · have h := List.filter_append_perm (fun r : Row => r.kfold = fold) train
    simpa [validSelection, trainSelection] using h

/-- Witness for C2 on a concrete two-row file. -/
theorem c2_witness : rowB ∉ trainSelection 0 [rowA, rowB] :=
  (c2_train_fold_partitions_by_kfold 0 [rowA, rowB]).2.2.1 rowB (by decide)

/-- C3: `forward` returns a non-`None` loss iff both `start_positions`
and `end_positions` are provided, in which case the loss is the
arithmetic mean of the start and end cross-entropy losses; with either
label absent the loss is `None`, and the logits returned are the same in
all cases. -/
theorem c3_loss_iff_both_positions (nll : List ℚ → ℕ → ℚ) (head : CustomHead)
    (so : List (List (List ℚ))) (spq epq : Option (List ℤ)) :
    ((forward nll head so spq epq).loss.isSome ↔ (spq.isSome ∧ epq.isSome)) ∧
    (∀ sp ep, spq = some sp → epq = some ep →
      (forward nll head so spq epq).loss = some
        ((crossEntropyLoss nll (size1 ((forward nll head so none none).start_logits))
            ((forward nll head so none none).start_logits)
            (sp.map (fun x =>
              (clampTo 0 ((size1 ((forward nll head so none none).start_logits) : ℕ) : ℤ) x).toNat))
          + crossEntropyLoss nll (size1 ((forward nll head so none none).start_logits))
            ((forward nll head so none none).end_logits)
            (ep.map (fun x =>
              (clampTo 0 ((size1 ((forward nll head so none none).start_logits) : ℕ) : ℤ) x).toNat))) / 2)) ∧
    ((spq = none ∨ epq = none) → (forward nll head so spq epq).loss = none) ∧
    (forward nll head so spq epq).start_logits = (forward nll head so none none).start_logits ∧
    (forward nll head so spq epq).end_logits = (forward nll head so none none).end_logits := by
  cases spq <;> cases epq <;>
    simp [forward]

/-- Witness for C3 on a concrete batch: the loss formula with both labels
present, and `None` with the start labels absent. -/
theorem c3_witness :
    ((forward nll0 head0 so0 (some [0, 1]) (some [1, 0])).loss = some
      ((crossEntropyLoss nll0 (size1 ((forward nll0 head0 so0 none none).start_logits))
          ((forward nll0 head0 so0 none none).start_logits)
          ([(0 : ℤ), 1].map (fun x =>
            (clampTo 0 ((size1 ((forward nll0 head0 so0 none none).start_logits) : ℕ) : ℤ) x).toNat))
        + crossEntropyLoss nll0 (size1 ((forward nll0 head0 so0 none none).start_logits))
          ((forward nll0 head0 so0 none none).end_logits)
          ([(1 : ℤ), 0].map (fun x =>
            (clampTo 0 ((size1 ((forward nll0 head0 so0 none none).start_logits) : ℕ) : ℤ) x).toNat))) / 2)) ∧
    (forward nll0 head0 so0 none (some [1, 0])).loss = none :=
  ⟨(c3_loss_iff_both_positions nll0 head0 so0 (some [0, 1]) (some [1, 0])).2.1
      [0, 1] [1, 0] rfl rfl,
    (c3_loss_iff_both_positions nll0 head0 so0 none (some [1, 0])).2.2.1 (Or.inl rfl)⟩

/-- C4 counterexample: a start label of `-1` lies outside the model's
input range, yet it is not excluded from the loss — the clamp sends it to
position `0`, its sample appears among the pairs the cross-entropy
scores, and the loss differs from the one obtained with the out-of-range
label `5` (which is excluded); so the loss is not the same for all
out-of-range values of that label. -/
theorem c4_counterexample :
    (-1 : ℤ) < 0 ∧
    size1 (forward nll0 head0 so0 none none).start_logits = 2 ∧
    (([(0 : ℚ), 0], (0 : ℕ))) ∈ ceActive 2 ((forward nll0 head0 so0 none none).start_logits)
      ([(-1 : ℤ), 0].map (fun x => (clampTo 0 ((2 : ℕ) : ℤ) x).toNat)) ∧
    (forward nll0 head0 so0 (some [-1, 0]) (some [0, 0])).loss ≠
      (forward nll0 head0 so0 (some [5, 0]) (some [0, 0])).loss := by
  refine ⟨by norm_num, rfl, ?_, ?_⟩
  · simp [forward, applyLast, catLast, squeezeLast, ceActive, clampTo, head0, so0, dot,
      Linear.apply, Int.toNat_ofNat, List.filter_cons, show ((2 : ℤ).toNat = 2) from rfl]
  · norm_num [forward, applyLast, catLast, squeezeLast, size1, crossEntropyLoss, ceActive,
      clampTo, nll0, head0, so0, dot, Linear.apply, Int.toNat_ofNat, List.filter_cons,
      show ((2 : ℤ).toNat = 2) from rfl]

/-- C4 (amended): label positions are clamped into `[0, seq_len]` and
`seq_len` is the `CrossEntropyLoss` ignore index; any label position
greater than or equal to `seq_len` is clamped to the ignore index and its
sample is excluded from the loss — the loss is unchanged when such labels
are replaced by any other values `≥ seq_len` — while a negative label
position is clamped to `0` and scored as position `0`; the cross-entropy
is only ever invoked on targets in `[0, seq_len]`. -/
theorem c4_clamp_ignore_amended (nll : List ℚ → ℕ → ℚ) (head : CustomHead)
    (so : List (List (List ℚ))) (L : ℕ)
    (hL : L = size1 (forward nll head so none none).start_logits)
    (sp ep sp' ep' : List ℤ) :
    (∀ x : ℤ, 0 ≤ clampTo 0 (L : ℤ) x ∧ clampTo 0 (L : ℤ) x ≤ (L : ℤ)) ∧
    (∀ x : ℤ, (L : ℤ) ≤ x → (clampTo 0 (L : ℤ) x).toNat = L) ∧
    (∀ x : ℤ, x < 0 → (clampTo 0 (L : ℤ) x).toNat = 0) ∧
    (∀ (logits : List (List ℚ)) (ts : List ℕ) (p : List ℚ × ℕ),
      p ∈ ceActive L logits ts → p.2 ≠ L) ∧
    (List.Forall₂ (fun a b => a = b ∨ ((L : ℤ) ≤ a ∧ (L : ℤ) ≤ b)) sp sp' →
     List.Forall₂ (fun a b => a = b ∨ ((L : ℤ) ≤ a ∧ (L : ℤ) ≤ b)) ep ep' →
     (forward nll head so (some sp) (some ep)).loss =
       (forward nll head so (some sp') (some ep')).loss) := by
  refine ⟨?_, clampTo_toNat_of_ge L, clampTo_toNat_of_neg L, ceActive_target_ne L, ?_⟩
  · intro x
    unfold clampTo
    constructor
    · exact le_max_left 0 _
    · have : min x (L : ℤ) ≤ (L : ℤ) := min_le_right x _
      omega
  · intro hsp hep
    have hclamp : ∀ (u u' : List ℤ),
        List.Forall₂ (fun a b => a = b ∨ ((L : ℤ) ≤ a ∧ (L : ℤ) ≤ b)) u u' →
        List.Forall₂ (fun a b => a = b ∨ (a = L ∧ b = L))
          (u.map (fun x => (clampTo 0 (L : ℤ) x).toNat))
          (u'.map (fun x => (clampTo 0 (L : ℤ) x).toNat)) := by
      intro u u' hu
      refine forall2_map _ hu (fun a b hab => ?_)
      rcases hab with rfl | ⟨ha, hb⟩
      · exact Or.inl rfl
      · exact Or.inr ⟨clampTo_toNat_of_ge L a ha, clampTo_toNat_of_ge L b hb⟩
    have hs := crossEntropyLoss_congr nll L ((forward nll head so none none).start_logits)
      _ _ (hclamp sp sp' hsp)
    have he := crossEntropyLoss_congr nll L ((forward nll head so none none).end_logits)
      _ _ (hclamp ep ep' hep)
    rw [forward_loss_eq, forward_loss_eq, ← hL, hs, he]

/-- Witness for the amended C4: on a concrete batch with sequence length
2, replacing the above-range start label `5` by `77` leaves the loss
unchanged, and `5` is clamped to the ignore index `2`. -/
theorem c4_witness :
    (forward nll0 head0 so0 (some [5, 0]) (some [0, 0])).loss =
      (forward nll0 head0 so0 (some [77, 0]) (some [0, 0])).loss ∧
    (clampTo 0 ((2 : ℕ) : ℤ) 5).toNat = 2 :=
  ⟨(c4_clamp_ignore_amended nll0 head0 so0 2 rfl [5, 0] [0, 0] [77, 0] [0, 0]).2.2.2.2
      (List.Forall₂.cons (Or.inr ⟨by norm_num, by norm_num⟩)
        (List.Forall₂.cons (Or.inl rfl) List.Forall₂.nil))
      (List.Forall₂.cons (Or.inl rfl) (List.Forall₂.cons (Or.inl rfl) List.Forall₂.nil)),
    (c4_clamp_ignore_amended nll0 head0 so0 2 rfl [5, 0] [0, 0] [77, 0] [0, 0]).2.1 5
      (by norm_num)⟩

/-- C5: for every input batch, `forward` returns per-token start and end
logits — after the final squeeze of the trailing singleton dimension each
logits tensor has one score per token position: its batch dimension and
its per-element sequence lengths equal those of the backbone output. -/
theorem c5_per_token_logit_shapes (nll : List ℚ → ℕ → ℚ) (head : CustomHead)
    (so : List (List (List ℚ))) (sp ep : Option (List ℤ)) :
    (forward nll head so sp ep).start_logits.length = so.length ∧
    (forward nll head so sp ep).end_logits.length = so.length ∧
    (forward nll head so sp ep).start_logits.map List.length = so.map List.length ∧
    (forward nll head so sp ep).end_logits.map List.length = so.map List.length := by
  rw [forward_start_logits, forward_end_logits]
  refine ⟨by simp, by simp, ?_, ?_⟩ <;>
    simp [List.map_map, Function.comp]

/-- C6: feature tokenization for the training and the validation dataset
uses the same sliding-window parameters — maximum feature length 384 and
document stride 128 — passed identically to `prepare_train_features` for
both datasets. -/
theorem c6_same_tokenization_args (fold : ℤ) (env : Env) :
    (train_fold fold env).trainPrep = (train_fold fold env).validPrep ∧
    (train_fold fold env).trainPrep = ⟨env.padOnRight, 384, 128⟩ ∧
    Stage.tokenizeFeatures ((train_fold fold env).trainPrep) ((train_fold fold env).validPrep)
      ∈ (train_fold fold env).stages ∧
    MAX_LENGTH = 384 ∧ DOC_STRIDE = 128 := by
  refine ⟨rfl, rfl, ?_, rfl, rfl⟩
  simp [train_fold]

/-- C7: the program's only command-line interface is the single flag
`--fold` parsed as an integer, which selects the fold passed to
`train_fold`; the csv paths are fixed in the code and no other
command-line argument is accepted. -/
theorem c7_cli_single_fold_flag :
    cliArguments = [("--fold", ArgType.int)] ∧
    cliArguments.length = 1 ∧
    (∀ (s : String) (f : ℤ) (env : Env), parseIntToken s = some f →
      mainRun ["--fold", s] env = some (train_fold f env)) ∧
    (∀ (argv : List String) (env : Env), (mainRun argv env).isSome →
      ∃ s : String, argv = ["--fold", s]) ∧
    (∀ (fold : ℤ) (env : Env), (train_fold fold env).csvPaths =
      ["../input/train_folds.csv", "../input/mlqa_hindi.csv", "../input/xquad.csv",
       "../input/squadv2.csv", "../input/tydiqa.csv"]) := by
  refine ⟨rfl, rfl, ?_, ?_, fun _ _ => rfl⟩
  · intro s f env hs
    simp [mainRun, parseArgv, hs]
  · intro argv env h
    match argv with
    | [] => simp [mainRun, parseArgv] at h
    | [a] => simp [mainRun, parseArgv] at h
    | [a, b] =>
      by_cases ha : a = "--fold"
      · exact ⟨b, by rw [ha]⟩
      · exfalso
        simp [mainRun, parseArgv, ha] at h
    | a :: b :: c :: t => simp [mainRun, parseArgv] at h

/-- Witness for C7: running with `--fold 3` trains fold 3. -/
theorem c7_witness : mainRun ["--fold", "3"] env0 = some (train_fold 3 env0) :=
  c7_cli_single_fold_flag.2.2.1 "3" 3 env0 (by decide)

/-- C8: the evaluation metric decodes predicted spans back to answer text
and scores Jaccard overlap against the held-out validation answers, and
`jaccardScore` is constructed from the validation dataframe and the same
`pad_on_right`, max length 384 and doc stride 128 used for feature
preparation. -/
theorem c8_jaccard_metric_construction (fold : ℤ) (env : Env)
    (ex : ValExample) (s e : ℕ) :
    (train_fold fold env).metricsArgs =
      ⟨validSelection fold env.trainFoldsCsv, env.padOnRight, MAX_LENGTH, DOC_STRIDE⟩ ∧
    (train_fold fold env).metricsArgs.maxLen = (train_fold fold env).trainPrep.maxLen ∧
    (train_fold fold env).metricsArgs.docStride = (train_fold fold env).trainPrep.docStride ∧
    (train_fold fold env).metricsArgs.padOnRight = (train_fold fold env).trainPrep.padOnRight ∧
    (train_fold fold env).metricsArgs.maxLen = 384 ∧
    (train_fold fold env).metricsArgs.docStride = 128 ∧
    jaccardScoreMetric [ex] [(s, e)] = jaccard (decodeSpan ex.contextTokens s e) ex.goldAnswer := by
  refine ⟨rfl, rfl, rfl, rfl, rfl, rfl, ?_⟩
  simp [jaccardScoreMetric]

/-- C9: for every fold, `train_fold` performs its stages in a fixed
sequential order — load and split the csv data, assemble the training
data and convert the answers, tokenize both datasets into features,
instantiate the model from the pretrained checkpoint, run a single
training loop — with no stage repeated or reordered. -/
theorem c9_stage_order (fold : ℤ) (env : Env) :
    (train_fold fold env).stages =
      [Stage.loadAndSplitData, Stage.assembleAndConvert,
       Stage.tokenizeFeatures ⟨env.padOnRight, MAX_LENGTH, DOC_STRIDE⟩
         ⟨env.padOnRight, MAX_LENGTH, DOC_STRIDE⟩,
       Stage.loadModel MODEL_CHECKPOINT, Stage.trainLoop] ∧
    (train_fold fold env).stages.Nodup ∧
    (train_fold fold env).stages.length = 5 := by
  refine ⟨rfl, ?_, rfl⟩
  simp [train_fold]

/-- C10: in the assembled training dataframe, a `train_folds.csv` row
with `kfold` different from the selected fold occurs 5 times its
multiplicity in the file (5, when it occurs once and coincides with no
row of another source), a row with `kfold` equal to the selected fold
does not occur at all, a row of the (post-`dropna`) tydiqa or squadv2
dataframes occurs exactly once, and each row of the mlqa/xquad external
data contributes exactly one row (counted by payload, since its id is
re-indexed) — the in-competition data is oversampled fivefold, the
external data is not. -/
theorem c10_oversampling_counts (fold : ℤ) (env : Env) (r : Row) (pl : String) :
    ((env.trainFoldsCsv.count r = 1 → r.kfold ≠ fold →
      (dropna env.tydiqaCsv).count r = 0 → (dropna env.squadv2Csv).count r = 0 →
      (externalTrain env.mlqaCsv env.xquadCsv).count r = 0 →
      (train_fold fold env).train.count r = 5)) ∧
    ((r.kfold = fold →
      (dropna env.tydiqaCsv).count r = 0 → (dropna env.squadv2Csv).count r = 0 →
      (externalTrain env.mlqaCsv env.xquadCsv).count r = 0 →
      (train_fold fold env).train.count r = 0)) ∧
    (((dropna env.tydiqaCsv).count r + (dropna env.squadv2Csv).count r = 1 →
      env.trainFoldsCsv.count r = 0 →
      (externalTrain env.mlqaCsv env.xquadCsv).count r = 0 →
      (train_fold fold env).train.count r = 1)) ∧
    ((env.mlqaCsv ++ env.xquadCsv).countP (fun q => q.payload = pl) = 1 →
      (dropna env.tydiqaCsv).countP (fun q => q.payload = pl) = 0 →
      (dropna env.squadv2Csv).countP (fun q => q.payload = pl) = 0 →
      (trainSelection fold env.trainFoldsCsv).countP (fun q => q.payload = pl) = 0 →
      (train_fold fold env).train.countP (fun q => q.payload = pl) = 1) := by
  have hasm : (train_fold fold env).train =
      assembledTrain fold env.trainFoldsCsv env.mlqaCsv env.xquadCsv
        env.squadv2Csv env.tydiqaCsv := rfl
  refine ⟨?_, ?_, ?_, ?_⟩
  · intro h1 hk h2 h3 h4
    rw [hasm, count_assembledTrain, h2, h3, h4]
    have hsel : (trainSelection fold env.trainFoldsCsv).count r = env.trainFoldsCsv.count r :=
      List.count_filter (by simpa using hk)
    rw [hsel, h1]
  · intro hk h2 h3 h4
    rw [hasm, count_assembledTrain, h2, h3, h4]
    have hsel : (trainSelection fold env.trainFoldsCsv).count r = 0 := by
      refine List.count_eq_zero.mpr (fun hm => ?_)
      have := (List.mem_filter.mp hm).2
      simp [hk] at this
    rw [hsel]
  · intro h1 h2 h3
    rw [hasm, count_assembledTrain, h3]
    have hsel : (trainSelection fold env.trainFoldsCsv).count r = 0 := by
      have hle : (trainSelection fold env.trainFoldsCsv).count r ≤ env.trainFoldsCsv.count r := by
        unfold trainSelection
        exact (List.filter_sublist _).count_le r
      omega
    omega
  · intro h1 h2 h3 h4
    rw [hasm, countP_assembledTrain, h2, h3, h4, countP_payload_externalTrain, h1]

/-- Witness for C10 on a concrete environment: the competition row with a
different `kfold` occurs 5 times, the one with the selected `kfold` not
at all, the tydiqa row once, and the mlqa row's payload once. -/
theorem c10_witness :
    (train_fold 0 env10).train.count rowA = 5 ∧
    (train_fold 0 env10).train.count rowB = 0 ∧
    (train_fold 0 env10).train.count rowT = 1 ∧
    (train_fold 0 env10).train.countP (fun q => q.payload = "pm") = 1 :=
  ⟨(c10_oversampling_counts 0 env10 rowA "pa").1
      (by decide) (by decide) (by decide) (by decide) (by decide),
    (c10_oversampling_counts 0 env10 rowB "pb").2.1
      (by decide) (by decide) (by decide) (by decide),
    (c10_oversampling_counts 0 env10 rowT "pt").2.2.1
      (by decide) (by decide) (by decide),
    (c10_oversampling_counts 0 env10 rowM "pm").2.2.2
      (by decide) (by decide) (by decide) (by decide)⟩

end Rembert
